import Mathlib

/-!
Shallow embedding of the SignalsJS reactive library (src/Signals.js) and
verification of its specification's claims.

The embedding models:
* JavaScript primitive values exchanged by cells (`JSVal`);
* the per-cell `History` class (past/future stacks, bounded push, undo, redo);
* a single reactive cell's write / undo / redo pipeline (`SigState`,
  `writeSig`, `sigUndo`, `sigRedo`) including persistence-store calls,
  history pushes guarded by the `_isUndoRedo` replay flag, and the
  batching / immediate notification split;
* cell creation `ref(initialValue, options)` with persistence loading
  (`refCreate`), where the external `localStorage` is an association list
  and the external `JSON.parse` is a parameter returning `Option JSVal`
  (a JavaScript parse exception is `none`, caught by the source's
  `try/catch`);
* the dependency-tracking core (`TrackState`, `readCell`, `cleanup`,
  `runEffect`) for effects;
* the multi-cell batch scheduler (`World`, `writeW`, `batchW`);
* the `watch` and `derive`/`computed` combinators on small dedicated
  state machines.

Machine-level conventions: JavaScript strict equality `===` on the
primitive values modelled here is decidable equality on `JSVal`.
`undefined` is not included in `JSVal`: none of the verified scenarios
produces it, and `History.push` applies `JSON.parse(JSON.stringify(·))`,
which is the identity on the primitives modelled (numbers, strings,
booleans, null) and cannot round-trip `undefined` at all.
-/

namespace SignalsJS

/-- JavaScript primitive values held by reactive cells.  Numbers are
modelled as integers (no floating point is exercised by any claim). -/
inductive JSVal where
  | num (n : Int)
  | str (s : String)
  | bool (b : Bool)
  | jsNull
deriving DecidableEq, Repr

/-- JavaScript truthiness of a `JSVal` (used by user-supplied guard
bodies such as `if (G()) ...`). -/
def JSVal.truthy : JSVal → Bool
  | .num n => n ≠ 0
  | .str s => s ≠ ""
  | .bool b => b
  | .jsNull => false

/-- The `History` class of src/Signals.js: bounded `past` stack
(oldest first, most-recent last), `future` stack, capacity `maxSize`. -/
structure History where
  past : List JSVal
  future : List JSVal
  maxSize : Nat
deriving DecidableEq, Repr

/-- `History.push(state)`: append the state (the source's
`JSON.parse(JSON.stringify(state))` clone is the identity on the
primitives modelled), evict the oldest entry (`past.shift()`) when the
capacity is exceeded, and clear `future`. -/
def History.push (h : History) (v : JSVal) : History :=
  let p := h.past ++ [v]
  { past := if h.maxSize < p.length then p.tail else p
    future := []
    maxSize := h.maxSize }

/-- `History.undo()`: when `past` holds at most one entry return the
JavaScript `null` sentinel without mutating; otherwise pop the current
entry onto `future` and return the new last past entry.  The source
returns the value `null` itself, so a stored `null` entry is
indistinguishable from the boundary sentinel — this conflation is
exactly what claim C10 is about. -/
def History.undoH (h : History) : History × JSVal :=
  if h.past.length ≤ 1 then (h, .jsNull)
  else
    let current := h.past.getLastD .jsNull
    let past := h.past.dropLast
    ({ past := past, future := h.future ++ [current], maxSize := h.maxSize },
     past.getLastD .jsNull)

/-- `History.redo()`: when `future` is empty return the `null` sentinel;
otherwise pop the last future entry, push it back onto `past` (directly,
without the capacity/clearing logic of `push`), and return it. -/
def History.redoH (h : History) : History × JSVal :=
  if h.future.isEmpty then (h, .jsNull)
  else
    let state := h.future.getLastD .jsNull
    ({ past := h.past ++ [state], future := h.future.dropLast, maxSize := h.maxSize },
     state)

/-- Minimal `JSON.stringify` for the primitive values modelled, used by
the persistence branch of the setter (`localStorage.setItem(key,
JSON.stringify(value))`). -/
def stringifyJS : JSVal → String
  | .num n => toString n
  | .str s => "\x22" ++ s ++ "\x22"
  | .bool b => if b then "true" else "false"
  | .jsNull => "null"

/-- Observable state of one reactive cell created by `ref`, together
with the event logs a claim inspects:
* `storeWrites` records every `localStorage.setItem(key, text)` call;
* `reports` records every `console.error` report;
* `queue` is the global `batchQueue` (the old value captured by each
  enqueued notification closure, in insertion order — each write creates
  a fresh closure object, so the JavaScript `Set` never deduplicates);
* `notifyLog` records each immediate `notifyObservers` dispatch (the old
  value passed to the subscribers). -/
structure SigState where
  value : JSVal
  hist : Option History
  isUndoRedo : Bool
  persistKey : Option String
  storeWrites : List (String × String)
  reports : List String
  isBatching : Bool
  queue : List JSVal
  notifyLog : List JSVal
deriving DecidableEq, Repr

/-- Setter mode of the `signal` closure (src/Signals.js lines 117–149):
a strictly-equal write is a complete no-op; otherwise the value is
updated, persisted when persistence is configured, pushed to history
unless the `_isUndoRedo` replay flag is set, and the notification is
either enqueued on the batch queue or dispatched immediately. -/
def writeSig (st : SigState) (newValue : JSVal) : SigState :=
  if newValue = st.value then st
  else
    let oldValue := st.value
    let st1 := { st with value := newValue }
    let st2 :=
      match st1.persistKey with
      | some k => { st1 with storeWrites := st1.storeWrites ++ [(k, stringifyJS newValue)] }
      | none => st1
    let st3 :=
      match st2.hist, st2.isUndoRedo with
      | some h, false => { st2 with hist := some (h.push newValue) }
      | _, _ => st2
    if st3.isBatching then { st3 with queue := st3.queue ++ [oldValue] }
    else { st3 with notifyLog := st3.notifyLog ++ [oldValue] }

/-- `signal.undo()` (installed only when history is enabled): ask the
history tracker for the previous state; if the result is not the
JavaScript `null`/`undefined` sentinel, replay it through the setter
with the `_isUndoRedo` flag set, then clear the flag. -/
def sigUndo (st : SigState) : SigState :=
  match st.hist with
  | none => st
  | some h =>
    let hp := h.undoH
    let st1 := { st with hist := some hp.1 }
    if hp.2 = .jsNull then st1
    else
      let st2 := writeSig { st1 with isUndoRedo := true } hp.2
      { st2 with isUndoRedo := false }

/-- `signal.redo()`: symmetric to `sigUndo`, replaying the next future
state through the setter when it is not the `null` sentinel. -/
def sigRedo (st : SigState) : SigState :=
  match st.hist with
  | none => st
  | some h =>
    let hp := h.redoH
    let st1 := { st with hist := some hp.1 }
    if hp.2 = .jsNull then st1
    else
      let st2 := writeSig { st1 with isUndoRedo := true } hp.2
      { st2 with isUndoRedo := false }

/-- Options object accepted by `ref(initialValue, options)`. -/
structure RefOptions where
  persist : Bool := false
  key : Option String := none
  history : Bool := false
  historySize : Nat := 100
deriving DecidableEq, Repr

/-- JavaScript truthiness of the `key` option (the source guards both
the load and the store with `persist && key`, so a missing key or the
empty string disables persistence). -/
def keyTruthy : Option String → Bool
  | none => false
  | some k => k ≠ ""

/-- Lookup in the external persistence store (`localStorage.getItem`
returns `null`, i.e. `none`, for a missing key). -/
def lookupStore (store : List (String × String)) (k : String) : Option String :=
  match store.find? (fun p => p.1 = k) with
  | some p => some p.2
  | none => none

/-- Report text issued by the creation-time `catch` branch
(`console.error` on a failed `JSON.parse` of the stored text). -/
def loadErrorReport (k : String) : String :=
  "Error loading persisted value for " ++ k

/-- Cell creation `ref(initialValue, options)` (src/Signals.js lines
88–115): when `persist && key` holds and the store has a value under
`key`, parse it — on success it overrides the initial value, on a parse
exception (`parse` returns `none`) the error is reported and the initial
value is retained; when the key is missing or falsy the persistence
branch is skipped silently.  When history is enabled a `History` of
capacity `historySize` is created and primed with the resolved value.
The function is total: no configuration or load problem raises. -/
def refCreate (parse : String → Option JSVal) (store : List (String × String))
    (initialValue : JSVal) (opts : RefOptions) : SigState :=
  let enabled := opts.persist && keyTruthy opts.key
  let loaded : JSVal × List String :=
    if enabled then
      match opts.key with
      | some k =>
        match lookupStore store k with
        | none => (initialValue, [])
        | some s =>
          match parse s with
          | some v => (v, [])
          | none => (initialValue, [loadErrorReport k])
      | none => (initialValue, [])
    else (initialValue, [])
  { value := loaded.1
    hist := if opts.history then some (History.push ⟨[], [], opts.historySize⟩ loaded.1) else none
    isUndoRedo := false
    persistKey := if enabled then opts.key else none
    storeWrites := []
    reports := loaded.2
    isBatching := false
    queue := []
    notifyLog := [] }

/-- Identifier of a reactive cell in the tracking model. -/
abbrev CellId := Nat

/-- Identifier of a reaction (effect instance) in the tracking model. -/
abbrev ReactionId := Nat

/-- Global state of the dependency-tracking core: each cell's subscriber
set (`signal.observers`), each reaction's dependency set (`run.deps`),
each cell's current value, and the Tracking Context `currentObserver`. -/
structure TrackState where
  observers : CellId → Finset ReactionId
  deps : ReactionId → Finset CellId
  values : CellId → JSVal
  current : Option ReactionId

/-- Getter mode of the `signal` closure: when the Tracking Context holds
an active reaction, the cell adds it to its observer set and the
reaction adds the cell to its dependency set; the current value is
returned (values are unchanged, so it is read off `values` directly). -/
def readCell (c : CellId) (st : TrackState) : TrackState :=
  match st.current with
  | none => st
  | some r =>
    { st with
      observers := Function.update st.observers c (insert r (st.observers c))
      deps := Function.update st.deps r (insert c (st.deps r)) }

/-- The `cleanup(observer)` helper (src/Signals.js lines 303–308):
remove the reaction from the observer set of every cell in its
dependency set, then clear the dependency set. -/
def cleanup (r : ReactionId) (st : TrackState) : TrackState :=
  { st with
    observers := fun c => if c ∈ st.deps r then (st.observers c).erase r else st.observers c
    deps := Function.update st.deps r ∅ }

/-- One run of an effect (the `run` closure of src/Signals.js lines
214–228) whose body is a pure sequence of tracked cell reads: cleanup,
set the Tracking Context to this reaction, reset its dependency set,
perform the body's reads, and finally (the source's `finally` block)
set `currentObserver = null` — unconditionally, whatever it held
before the run.  A body is modelled as the list of cells it reads,
as a function of the current values (reads never change values, so
the list is determined at entry), which covers bodies with
data-dependent conditional reads. -/
def runEffect (r : ReactionId) (body : (CellId → JSVal) → List CellId)
    (st : TrackState) : TrackState :=
  let st1 := cleanup r st
  let st2 := { st1 with current := some r }
  let st3 := (body st2.values).foldl (fun s c => readCell c s) st2
  { st3 with current := none }

/-- Body of a guarded reaction: read guard cell `g`; if its value is
truthy read cell `a`, otherwise read cell `b` (the conditional
dependency scenario of the re-subscription claim). -/
def guardBody (g a b : CellId) (values : CellId → JSVal) : List CellId :=
  if (values g).truthy then [g, a] else [g, b]

/-- Multi-cell state for the batch scheduler: cell values, the
`isBatching` flag, the pending `batchQueue` (each entry the cell written
and the old value its fresh closure captured, in insertion order), and
the log of notifications actually dispatched to subscribers (appending
to `delivered` stands for one `notifyObservers(observers, oldValue)`
invocation, which invokes each of the cell's subscribers once). -/
structure World where
  values : CellId → JSVal
  isBatching : Bool
  queue : List (CellId × JSVal)
  delivered : List (CellId × JSVal)

/-- Setter of cell `c` in the multi-cell model: strict-equality no-op,
otherwise update the value and either enqueue a fresh notification
closure on the batch queue or notify immediately. -/
def writeW (c : CellId) (v : JSVal) (w : World) : World :=
  if v = w.values c then w
  else
    let oldValue := w.values c
    let w1 := { w with values := Function.update w.values c v }
    if w1.isBatching then { w1 with queue := w1.queue ++ [(c, oldValue)] }
    else { w1 with delivered := w1.delivered ++ [(c, oldValue)] }

/-- A batch body modelled as the sequence of cell writes it performs. -/
def runOps (ops : List (CellId × JSVal)) (w : World) : World :=
  ops.foldl (fun s op => writeW op.1 op.2 s) w

/-- The `batch(batchFn)` operation (src/Signals.js lines 238–249): when
a batch is already open the body runs inline; otherwise open the batch,
run the body, then (in `finally`) close the batch, snapshot and clear
the queue, and run every flushed closure once in insertion order. -/
def batchW (ops : List (CellId × JSVal)) (w : World) : World :=
  if w.isBatching then runOps ops w
  else
    let w1 := runOps ops { w with isBatching := true }
    let tasks := w1.queue
    let w2 := { w1 with isBatching := false, queue := [] }
    tasks.foldl (fun s t => { s with delivered := s.delivered ++ [t] }) w2

/-- The notification sequence the specification predicts for a batch
body: one `(cell, old value)` entry per value-changing write, in write
order, writes that compare strictly equal contributing nothing. -/
def expectedNotifications (values : CellId → JSVal) :
    List (CellId × JSVal) → List (CellId × JSVal)
  | [] => []
  | (c, v) :: rest =>
    if v = values c then expectedNotifications values rest
    else (c, values c) :: expectedNotifications (Function.update values c v) rest

/-- State of the `watch(source, callback)` scenario: the watched cell's
value and the log of callback invocations, each recorded as the exact
argument list passed to the callback. -/
structure WatchWorld where
  x : JSVal
  calls : List (List JSVal)
deriving DecidableEq, Repr

/-- Body of the effect installed by `watch` (src/Signals.js line 253):
`() => callback(source())`.  The effect runner passes the old value to
the body, but this arrow function declares no parameter and ignores it;
the callback receives exactly one argument, the source's current
value. -/
def watchBodyArgs (sourceValue : JSVal) (_oldValue : Option JSVal) : List JSVal :=
  [sourceValue]

/-- Construction `watch(source, callback)`: the underlying effect runs
once immediately (no old value), invoking the callback. -/
def watchInit (x0 : JSVal) : WatchWorld :=
  { x := x0, calls := [watchBodyArgs x0 none] }

/-- A notifying write to the watched cell: on a strict-equality no-op
nothing happens; otherwise the cell updates and notifies its one
subscriber, whose run invokes the callback via `watchBodyArgs`. -/
def writeWatched (v : JSVal) (w : WatchWorld) : WatchWorld :=
  if v = w.x then w
  else { x := v, calls := w.calls ++ [watchBodyArgs v (some w.x)] }

/-- State of a `computed`-style construction over two source cells `x`
and `y` holding integers: the hidden internal cell starts as
`ref(undefined)` (`none`) and holds the body's result thereafter. -/
structure CWorld where
  x : Int
  y : Int
  out : Option Int
deriving DecidableEq, Repr

/-- One run of the reaction installed by `computed(body)`: it evaluates
the body over tracked reads of `x` and `y` and writes the result into
the hidden internal cell (whose own setter applies the strict-equality
no-op guard; either way the cell ends up holding the result). -/
def recompute (body : Int → Int → Int) (w : CWorld) : CWorld :=
  if some (body w.x w.y) = w.out then w
  else { w with out := some (body w.x w.y) }

/-- Construction of a computed cell over sources with initial values
`x0`, `y0`: the hidden cell starts as `undefined` and the reaction runs
once synchronously at creation. -/
def mkComputedW (body : Int → Int → Int) (x0 y0 : Int) : CWorld :=
  recompute body { x := x0, y := y0, out := none }

/-- A write to source `x` or source `y` (a `Sum.inl`/`Sum.inr` value):
the source cell's setter applies the strict-equality guard; a changing
write notifies its one subscriber, the computed cell's reaction, which
recomputes. -/
def stepWriteC (body : Int → Int → Int) (w : CWorld) : Sum Int Int → CWorld
  | .inl v => if v = w.x then w else recompute body { w with x := v }
  | .inr v => if v = w.y then w else recompute body { w with y := v }

/-- The sequence of values the computed cell holds: its value after
construction and after each write of the given write sequence. -/
def valueSeq (body : Int → Int → Int) (x0 y0 : Int) :
    List (Sum Int Int) → List (Option Int)
  | ops =>
    let states := ops.scanl (stepWriteC body) (mkComputedW body x0 y0)
    states.map CWorld.out

/-- The body `computed` runs for `derive(d1, d2, f)` (src/Signals.js
lines 257–261): `() => computeFn(...deps.map(dep => dep()))`, i.e. read
each positional dependency in order and apply the compute function. -/
def deriveBody (f : Int → Int → Int) : Int → Int → Int :=
  fun v1 v2 => f v1 v2

/-- `derive(X, Y, f)` is `computed` applied to `deriveBody f`; its value
sequence under a write sequence. -/
def deriveValueSeq (f : Int → Int → Int) (x0 y0 : Int)
    (ops : List (Sum Int Int)) : List (Option Int) :=
  valueSeq (deriveBody f) x0 y0 ops

/-- A cell with history enabled and default capacity, as created by
`ref(v, {history: true})` with no persistence (the parse function and
store are irrelevant and never consulted). -/
def mkHistCell (v : JSVal) : SigState :=
  refCreate (fun _ => none) [] v { history := true }

/-- A cell with history enabled and capacity 2, as created by
`ref(v, {history: true, historySize: 2})`. -/
def mkHistCell2 (v : JSVal) : SigState :=
  refCreate (fun _ => none) [] v { history := true, historySize := 2 }

/-- Sequence of `History.push` calls, oldest first. -/
def pushAll (vs : List JSVal) (h : History) : History :=
  vs.foldl History.push h

/-- Cell of the undo/redo round-trip scenario after `write(1); write(2)`
starting from `create(0, {history: true})`. -/
def c6s2 : SigState := writeSig (writeSig (mkHistCell (.num 0)) (.num 1)) (.num 2)

/-- The scenario cell after one `undo()`. -/
def c6u1 : SigState := sigUndo c6s2

/-- The scenario cell after a second `undo()`. -/
def c6u2 : SigState := sigUndo c6u1

/-- The scenario cell after a third `undo()` at the history floor. -/
def c6u3 : SigState := sigUndo c6u2

/-- The scenario cell after the first `redo()`. -/
def c6r1 : SigState := sigRedo c6u3

/-- The scenario cell after the second `redo()`. -/
def c6r2 : SigState := sigRedo c6r1

/-- The scenario cell after a fresh `write(5)` following the first
`undo()`. -/
def c6w5 : SigState := writeSig c6u1 (.num 5)

/-- Cell of the history-bounds scenario: `create(1, {history: true,
historySize: 2})` then `write(2); write(3); write(4)` — the history
receives the pushes `1, 2, 3, 4`. -/
def c7cell : SigState :=
  writeSig (writeSig (writeSig (mkHistCell2 (.num 1)) (.num 2)) (.num 3)) (.num 4)

/-- The history-bounds scenario cell after one `undo()`. -/
def c7afterUndo : SigState := sigUndo c7cell

/-- A tracking state with an outer reaction (id 0) currently active in
the Tracking Context and no subscriptions yet. -/
def c3OuterState : TrackState :=
  { observers := fun _ => ∅
    deps := fun _ => ∅
    values := fun _ => .num 0
    current := some 0 }

/-- The tracking state after a nested full run of reaction 1 (reading
cell 2) completes while reaction 0 was the active outer reaction. -/
def c3AfterNested : TrackState := runEffect 1 (fun _ => [2]) c3OuterState

/-- A fresh tracking state with no subscriptions, no active reaction,
and cell 1 (the guard cell of the witness scenario) holding a truthy
value. -/
def freshTrack : TrackState :=
  { observers := fun _ => ∅
    deps := fun _ => ∅
    values := Function.update (fun _ => JSVal.num 0) 1 (.num 7)
    current := none }

/-- A plain cell (no history, no persistence) holding 0, for the
equality no-op witness. -/
def plainCell : SigState :=
  { value := .num 0, hist := none, isUndoRedo := false, persistKey := none
    storeWrites := [], reports := [], isBatching := false, queue := [], notifyLog := [] }

/-- A multi-cell world with every cell holding 0, outside any batch,
with an empty batch queue. -/
def zeroWorld : World :=
  { values := fun _ => .num 0, isBatching := false, queue := [], delivered := [] }

/-- A concrete external parse function for the persistence witnesses:
parses the digit strings the scenarios store, fails on anything else. -/
def c8parse : String → Option JSVal :=
  fun s => if s = "7" then some (.num 7) else none

/-- Cell created by `ref(1, {persist: true})` — persistence requested
but no `key` supplied — against a store that does hold data. -/
def c8missingKey : SigState :=
  refCreate c8parse [("k", "7")] (.num 1) { persist := true }

/-- Cell with history enabled whose history holds a stored `null` entry
below the current entry: `create(null, {history: true})` then
`write(1)`. -/
def c10cell : SigState := writeSig (mkHistCell .jsNull) (.num 1)

/-! ### Theorems -/

/-- C2: a write of a value strictly equal to the current value changes
nothing — the whole cell state is untouched, so the value is unmodified,
no subscriber is invoked immediately (`notifyLog`) or via the batch
queue (`queue`), no history entry is pushed and the future stack is not
cleared (`hist`), and no persistence store call is made
(`storeWrites`). -/
theorem c2_equality_noop (st : SigState) (v : JSVal) (h : v = st.value) :
    writeSig st v = st ∧ (writeSig st v).value = st.value ∧
    (writeSig st v).notifyLog = st.notifyLog ∧ (writeSig st v).queue = st.queue ∧
    (writeSig st v).hist = st.hist ∧ (writeSig st v).storeWrites = st.storeWrites := by
  have hw : writeSig st v = st := by simp [writeSig, h]
  simp [hw]

/-- Witness for C2: writing `0` to a cell currently holding `0` is a
complete no-op. -/
theorem c2_equality_noop_witness :
    (JSVal.num 0) = plainCell.value ∧ writeSig plainCell (.num 0) = plainCell :=
  ⟨by decide, (c2_equality_noop plainCell (.num 0) (by decide)).1⟩

/-- C3 counterexample: reaction 0 is the active outer reaction when a
nested run of reaction 1 completes; afterwards the Tracking Context is
`none`, not the outer reaction 0 — and a subsequent cell read by the
outer body changes nothing, in particular it is not recorded as a
dependency of reaction 0. -/
theorem c3_counterexample :
    c3OuterState.current = some 0 ∧
    c3AfterNested.current = none ∧ c3AfterNested.current ≠ some 0 ∧
    readCell 3 c3AfterNested = c3AfterNested ∧
    (readCell 3 c3AfterNested).deps 0 = ∅ := by
  exact ⟨rfl, rfl, by decide, rfl, by decide⟩

/-- C3 amended: when a reaction's full run finishes, the Tracking
Context is unconditionally cleared to `none` (the source's `finally`
block runs `currentObserver = null`), whatever reaction was active
before; it is not restored, so any cell read performed afterwards by an
outer reaction's body is a no-op for dependency tracking. -/
theorem c3_amended_cleared_not_restored (st : TrackState) (r : ReactionId)
    (body : (CellId → JSVal) → List CellId) (c : CellId) :
    (runEffect r body st).current = none ∧
    readCell c (runEffect r body st) = runEffect r body st :=
  ⟨rfl, rfl⟩

/-- C5 counterexample: for the cell holding `0` under `watch`, the
notifying write of `5` invokes the callback with the single-element
argument list `[5]` — one argument, not the two-argument list
`[5, 0]` of new and old value the claim describes. -/
theorem c5_counterexample :
    (writeWatched (.num 5) (watchInit (.num 0))).calls = [[.num 0], [.num 5]] ∧
    ((writeWatched (.num 5) (watchInit (.num 0))).calls.getLastD []).length = 1 ∧
    (writeWatched (.num 5) (watchInit (.num 0))).calls ≠ [[.num 0], [.num 5, .num 0]] := by
  decide

/-- C5 amended: whenever the watched cell performs a notifying write,
the callback is invoked with exactly one argument, the cell's new
value; the old value is not passed (the effect runner hands it to the
body, but `watch`'s arrow-function body ignores it). -/
theorem c5_amended_single_argument (w : WatchWorld) (v : JSVal) (h : v ≠ w.x) :
    (writeWatched v w).x = v ∧ (writeWatched v w).calls = w.calls ++ [[v]] := by
  simp [writeWatched, h, watchBodyArgs]

/-- Witness for the amended C5: writing `5` to the watched cell holding
`0` appends the one-argument invocation `[5]`. -/
theorem c5_amended_witness :
    (JSVal.num 5) ≠ (watchInit (.num 0)).x ∧
    (writeWatched (.num 5) (watchInit (.num 0))).calls = [[.num 0]] ++ [[.num 5]] :=
  ⟨by decide, (c5_amended_single_argument (watchInit (.num 0)) (.num 5) (by decide)).2⟩

/-- C6: the undo/redo round trip on `create(0, {history: true})` after
`write(1); write(2)` — `undo()` yields 1, a second `undo()` yields 0, a
third `undo()` at the floor is a no-op, `redo()` yields 1 and a second
`redo()` yields 2; after the first `undo()` a fresh `write(5)` clears
redo capability (the following `redo()` is a no-op).  The history
states after `undo()` and `redo()` show that the internal replay writes
push no new history entry and do not clear the future stack. -/
theorem c6_undo_redo_round_trip :
    c6u1.value = .num 1 ∧ c6u2.value = .num 0 ∧ c6u3 = c6u2 ∧
    c6r1.value = .num 1 ∧ c6r2.value = .num 2 ∧
    c6w5.value = .num 5 ∧ c6w5.hist = some ⟨[.num 0, .num 1, .num 5], [], 100⟩ ∧
    sigRedo c6w5 = c6w5 ∧
    c6u1.hist = some ⟨[.num 0, .num 1], [.num 2], 100⟩ ∧
    c6r1.hist = some ⟨[.num 0, .num 1], [.num 2], 100⟩ := by
  decide

/-- Helper: under subscription coherence for reaction `r` (its
dependency set lists exactly the cells whose observer sets contain it),
`cleanup` detaches `r` from every cell and clears its dependency set,
touching neither values nor the Tracking Context. -/
theorem cleanup_clears (r : ReactionId) (st : TrackState)
    (hcoh : ∀ c, r ∈ st.observers c ↔ c ∈ st.deps r) :
    (cleanup r st).deps r = ∅ ∧ (∀ c, r ∉ (cleanup r st).observers c) ∧
    (cleanup r st).values = st.values ∧ (cleanup r st).current = st.current := by
  refine ⟨by simp [cleanup], ?_, rfl, rfl⟩
  intro c
  by_cases h : c ∈ st.deps r
  · simp [cleanup, h]
  · simpa [cleanup, h] using fun hr => h ((hcoh c).mp hr)

/-- Helper: folding tracked reads over a state whose Tracking Context
holds reaction `r` keeps the context and values, grows `r`'s dependency
set by exactly the cells read, and makes `r` an observer of exactly the
cells read (in addition to any prior subscriptions). -/
theorem foldl_readCell (r : ReactionId) (reads : List CellId) (st : TrackState)
    (hc : st.current = some r) :
    (reads.foldl (fun s c => readCell c s) st).current = some r ∧
    (reads.foldl (fun s c => readCell c s) st).values = st.values ∧
    (reads.foldl (fun s c => readCell c s) st).deps r = st.deps r ∪ reads.toFinset ∧
    (∀ c, r ∈ (reads.foldl (fun s c => readCell c s) st).observers c ↔
      (r ∈ st.observers c ∨ c ∈ reads)) := by
  induction reads generalizing st with
  | nil => simp [hc]
  | cons a as ih =>
    have hread : readCell a st = { st with
        observers := Function.update st.observers a (insert r (st.observers a))
        deps := Function.update st.deps r (insert a (st.deps r)) } := by
      simp [readCell, hc]
    obtain ⟨h1, h2, h3, h4⟩ := ih (readCell a st) (by rw [hread]; exact hc)
    simp only [List.foldl_cons]
    refine ⟨h1, by rw [h2, hread], ?_, ?_⟩
    · rw [h3, hread]
      simp only [Function.update_same, List.toFinset_cons]
      rw [Finset.insert_union, Finset.union_insert]
    · intro c
      rw [h4 c, hread]
      by_cases hca : c = a
      · subst hca
        simp
      · simp [Function.update_noteq hca, hca]

/-- C1: provided reaction `r`'s subscriptions are coherent before the
run (its dependency set lists exactly the cells observing it — true at
creation, where both sides are empty, and re-established by every run),
then after any run of its body the dependency set equals exactly the
set of cells the body read via the tracked getter, and `r` sits in a
cell's observer set exactly when that cell was read in this run — so
every cell subscribed in a previous run but not re-read is detached.
For the guarded body reading `{G, A}` when `G` is truthy and `{G, B}`
otherwise, the reaction ends subscribed to exactly `{G, A}` or exactly
`{G, B}` — never both `A` and `B`, never neither. -/
theorem c1_dependency_exactness (st : TrackState) (r : ReactionId)
    (hcoh : ∀ c, r ∈ st.observers c ↔ c ∈ st.deps r) :
    (∀ body : (CellId → JSVal) → List CellId,
      (runEffect r body st).deps r = (body st.values).toFinset ∧
      (∀ c, r ∈ (runEffect r body st).observers c ↔ c ∈ body st.values)) ∧
    (∀ g a b : CellId,
      ((st.values g).truthy = true →
        (runEffect r (guardBody g a b) st).deps r = {g, a} ∧
        (∀ c, r ∈ (runEffect r (guardBody g a b) st).observers c ↔ (c = g ∨ c = a))) ∧
      ((st.values g).truthy = false →
        (runEffect r (guardBody g a b) st).deps r = {g, b} ∧
        (∀ c, r ∈ (runEffect r (guardBody g a b) st).observers c ↔ (c = g ∨ c = b)))) := by
  obtain ⟨hd, ho, hv, _⟩ := cleanup_clears r st hcoh
  have main : ∀ body : (CellId → JSVal) → List CellId,
      (runEffect r body st).deps r = (body st.values).toFinset ∧
      (∀ c, r ∈ (runEffect r body st).observers c ↔ c ∈ body st.values) := by
    intro body
    have h2v : ({ cleanup r st with current := some r } : TrackState).values = st.values := hv
    obtain ⟨f1, f2, f3, f4⟩ :=
      foldl_readCell r (body ({ cleanup r st with current := some r } : TrackState).values)
        { cleanup r st with current := some r } rfl
    have hrun : runEffect r body st =
        { (body ({ cleanup r st with current := some r } : TrackState).values).foldl
            (fun s c => readCell c s) { cleanup r st with current := some r }
          with current := none } := rfl
    constructor
    · rw [hrun]
      show (_ : TrackState).deps r = _
      rw [f3, h2v]
      show (cleanup r st).deps r ∪ _ = _
      rw [hd, Finset.empty_union]
    · intro c
      rw [hrun]
      show r ∈ (_ : TrackState).observers c ↔ _
      rw [f4 c, h2v]
      show r ∈ (cleanup r st).observers c ∨ _ ↔ _
      simp [ho c]
  refine ⟨main, ?_⟩
  intro g a b
  constructor
  · intro ht
    obtain ⟨m1, m2⟩ := main (guardBody g a b)
    have hreads : guardBody g a b st.values = [g, a] := by simp [guardBody, ht]
    refine ⟨?_, ?_⟩
    · rw [m1, hreads]; simp
    · intro c; rw [m2 c, hreads]; simp
  · intro hf
    obtain ⟨m1, m2⟩ := main (guardBody g a b)
    have hreads : guardBody g a b st.values = [g, b] := by simp [guardBody, hf]
    refine ⟨?_, ?_⟩
    · rw [m1, hreads]; simp
    · intro c; rw [m2 c, hreads]; simp

/-- Witness for C1: a fresh reaction 0 (coherently unsubscribed) run
with the guarded body over guard cell 1 (holding the truthy value 7),
then-cell 2 and else-cell 3 ends with dependency set exactly `{1, 2}`
and is observed by exactly cells 1 and 2. -/
theorem c1_dependency_exactness_witness :
    (∀ c, (0 : ReactionId) ∈ freshTrack.observers c ↔ c ∈ freshTrack.deps 0) ∧
    (runEffect 0 (guardBody 1 2 3) freshTrack).deps 0 = {1, 2} ∧
    (∀ c, (0 : ReactionId) ∈ (runEffect 0 (guardBody 1 2 3) freshTrack).observers c ↔
      (c = 1 ∨ c = 2)) := by
  have hcoh : ∀ c, (0 : ReactionId) ∈ freshTrack.observers c ↔ c ∈ freshTrack.deps 0 := by
    intro c; simp [freshTrack]
  have ht : (freshTrack.values 1).truthy = true := by decide
  obtain ⟨h1, h2⟩ := ((c1_dependency_exactness freshTrack 0 hcoh).2 1 2 3).1 ht
  exact ⟨hcoh, h1, h2⟩

/-- Helper: running a batch body while `isBatching` holds keeps the
flag, dispatches nothing, and appends to the batch queue exactly one
notification closure per value-changing write, in write order. -/
theorem runOps_batching (ops : List (CellId × JSVal)) (w : World)
    (hb : w.isBatching = true) :
    (runOps ops w).isBatching = true ∧
    (runOps ops w).delivered = w.delivered ∧
    (runOps ops w).queue = w.queue ++ expectedNotifications w.values ops := by
  induction ops generalizing w with
  | nil => simp [runOps, expectedNotifications, hb]
  | cons op rest ih =>
    obtain ⟨c, v⟩ := op
    have hcons : runOps ((c, v) :: rest) w = runOps rest (writeW c v w) := rfl
    by_cases hv : v = w.values c
    · have hw : writeW c v w = w := by simp [writeW, hv]
      rw [hcons, hw]
      obtain ⟨i1, i2, i3⟩ := ih w hb
      exact ⟨i1, i2, by rw [i3]; simp [expectedNotifications, hv]⟩
    · have hw : writeW c v w =
          { w with
            values := Function.update w.values c v,
            queue := w.queue ++ [(c, w.values c)] } := by
        simp [writeW, hv, hb]
      rw [hcons, hw]
      obtain ⟨i1, i2, i3⟩ := ih
        { w with
          values := Function.update w.values c v,
          queue := w.queue ++ [(c, w.values c)] } hb
      refine ⟨i1, i2, ?_⟩
      rw [i3]
      show (w.queue ++ [(c, w.values c)]) ++
          expectedNotifications (Function.update w.values c v) rest = _
      simp [expectedNotifications, hv, List.append_assoc]

/-- Helper: flushing a task list appends one delivery per task, in
order, leaving the queue and the batching flag alone. -/
theorem flush_delivers (tasks : List (CellId × JSVal)) (w : World) :
    (tasks.foldl (fun s t => { s with delivered := s.delivered ++ [t] }) w).delivered
      = w.delivered ++ tasks ∧
    (tasks.foldl (fun s t => { s with delivered := s.delivered ++ [t] }) w).queue
      = w.queue ∧
    (tasks.foldl (fun s t => { s with delivered := s.delivered ++ [t] }) w).isBatching
      = w.isBatching := by
  induction tasks generalizing w with
  | nil => simp
  | cons t ts ih =>
    obtain ⟨h1, h2, h3⟩ := ih { w with delivered := w.delivered ++ [t] }
    simp only [List.foldl_cons]
    refine ⟨?_, h2, h3⟩
    rw [h1]
    simp

/-- C4: for a batch opened on a quiescent scheduler (no batch open,
empty queue), every value-changing write inside the body enqueues one
notification closure per write call (`expectedNotifications` — one
`(cell, old value)` entry per changing write, never deduplicated per
cell); no notification is dispatched before the body returns
(`delivered` is unchanged at that point); and after the body returns
every enqueued closure runs exactly once, in enqueue order, leaving the
queue empty and the batch closed. -/
theorem c4_batch_notifications (w : World) (ops : List (CellId × JSVal))
    (hb : w.isBatching = false) (hq : w.queue = []) :
    (runOps ops { w with isBatching := true }).delivered = w.delivered ∧
    (runOps ops { w with isBatching := true }).queue =
      expectedNotifications w.values ops ∧
    (batchW ops w).delivered = w.delivered ++ expectedNotifications w.values ops ∧
    (batchW ops w).queue = [] ∧
    (batchW ops w).isBatching = false := by
  obtain ⟨b1, b2, b3⟩ := runOps_batching ops { w with isBatching := true } rfl
  have hq2 : (runOps ops { w with isBatching := true }).queue =
      expectedNotifications w.values ops := by
    rw [b3]
    show w.queue ++ _ = _
    rw [hq, List.nil_append]
  have hbatch : batchW ops w =
      (runOps ops { w with isBatching := true }).queue.foldl
        (fun s t => { s with delivered := s.delivered ++ [t] })
        { runOps ops { w with isBatching := true } with
          isBatching := false,
          queue := [] } := by
    unfold batchW
    rw [hb]
    rfl
  obtain ⟨f1, f2, f3⟩ := flush_delivers (runOps ops { w with isBatching := true }).queue
      { runOps ops { w with isBatching := true } with isBatching := false, queue := [] }
  refine ⟨b2, hq2, ?_, ?_, ?_⟩
  · rw [hbatch, f1]
    show (runOps ops { w with isBatching := true }).delivered ++ _ = _
    rw [b2, hq2]
  · rw [hbatch, f2]
  · rw [hbatch, f3]

/-- Witness for C4: writing cell 0 three times (1, 2, 3, each changing
the value) inside one batch dispatches nothing while the body runs and,
after it returns, delivers exactly three notifications — one per write,
with the respective old values, in write order (the cell's single
counter-incrementing subscriber is thus invoked exactly three times,
all after the body returns). -/
theorem c4_batch_notifications_witness :
    zeroWorld.isBatching = false ∧ zeroWorld.queue = [] ∧
    (runOps [(0, .num 1), (0, .num 2), (0, .num 3)]
      { zeroWorld with isBatching := true }).delivered = [] ∧
    (batchW [(0, .num 1), (0, .num 2), (0, .num 3)] zeroWorld).delivered =
      [(0, .num 0), (0, .num 1), (0, .num 2)] ∧
    (batchW [(0, .num 1), (0, .num 2), (0, .num 3)] zeroWorld).queue = [] := by
  obtain ⟨h1, _, h3, h4, _⟩ :=
    c4_batch_notifications zeroWorld [(0, .num 1), (0, .num 2), (0, .num 3)] rfl rfl
  refine ⟨rfl, rfl, by rw [h1]; rfl, ?_, h4⟩
  rw [h3]
  decide

/-- Helper: one `History.push` keeps `past` within capacity. -/
theorem push_bound (h : History) (v : JSVal) (hlen : h.past.length ≤ h.maxSize) :
    (h.push v).past.length ≤ h.maxSize := by
  simp only [History.push]
  split
  · simpa using hlen
  · next hgt =>
      simp only [List.length_append, List.length_singleton] at hgt ⊢
      omega

/-- Helper: any sequence of pushes keeps `past` within capacity. -/
theorem pushAll_bound (vs : List JSVal) (h : History)
    (hlen : h.past.length ≤ h.maxSize) :
    (pushAll vs h).past.length ≤ h.maxSize := by
  induction vs generalizing h with
  | nil => exact hlen
  | cons v vs ih =>
    have hm : (h.push v).maxSize = h.maxSize := rfl
    have := ih (h.push v) (by rw [hm]; exact push_bound h v hlen)
    rw [hm] at this
    exact this

/-- C7: for a history of capacity at least 1 whose `past` is within
capacity, every sequence of pushes keeps `len(past) ≤ maxSize`; a push
when `past` is full evicts the oldest entry; every push empties the
`future` stack.  Concretely, with `historySize = 2`, the writes pushing
1, 2, 3, 4 leave `past = [3, 4]`; one `undo()` yields 3 (leaving
`future = [4]`); and a subsequent non-replay `write(10)` leaves
`future` empty. -/
theorem c7_history_bounds (h : History) (hmax : 1 ≤ h.maxSize)
    (hlen : h.past.length ≤ h.maxSize) :
    (∀ vs, (pushAll vs h).past.length ≤ h.maxSize) ∧
    (∀ v, h.past.length = h.maxSize → (h.push v).past = h.past.tail ++ [v]) ∧
    (∀ v, (h.push v).future = []) ∧
    c7cell.hist = some ⟨[.num 3, .num 4], [], 2⟩ ∧
    c7afterUndo.value = .num 3 ∧
    c7afterUndo.hist = some ⟨[.num 3], [.num 4], 2⟩ ∧
    (writeSig c7afterUndo (.num 10)).hist = some ⟨[.num 3, .num 10], [], 2⟩ := by
  refine ⟨fun vs => pushAll_bound vs h hlen, ?_, fun v => rfl,
    by decide, by decide, by decide, by decide⟩
  intro v hfull
  simp only [History.push]
  rw [if_pos (by simp [hfull])]
  cases hp : h.past with
  | nil =>
    rw [hp] at hfull
    simp at hfull
    omega
  | cons a t => simp

/-- Witness for C7: the capacity-2 history of the scenario satisfies
the hypotheses, the bound holds after pushing 1, 2, 3, 4, and the
scenario cell's history is exactly `past = [3, 4]`. -/
theorem c7_history_bounds_witness :
    1 ≤ (⟨[], [], 2⟩ : History).maxSize ∧
    (⟨[], [], 2⟩ : History).past.length ≤ (⟨[], [], 2⟩ : History).maxSize ∧
    (pushAll [.num 1, .num 2, .num 3, .num 4] ⟨[], [], 2⟩).past.length ≤ 2 ∧
    c7cell.hist = some ⟨[.num 3, .num 4], [], 2⟩ := by
  obtain ⟨w1, _, _, w4, _⟩ := c7_history_bounds ⟨[], [], 2⟩ (by decide) (by decide)
  exact ⟨by decide, by decide, w1 [.num 1, .num 2, .num 3, .num 4], w4⟩

/-- Helper: a write on a cell with no effective persistence key never
calls the persistence store. -/
theorem writeSig_no_store (st : SigState) (hk : st.persistKey = none) (v : JSVal) :
    (writeSig st v).storeWrites = st.storeWrites := by
  unfold writeSig
  split
  · rfl
  · simp only [hk]
    split <;> split <;> rfl

/-- C8 counterexample: `ref(1, {persist: true})` with the key missing —
the persistence branch is silently skipped: no report is issued at all
(the claim's "reported once" is false), while persistence is indeed
treated as disabled (initial value kept, no store call on a write). -/
theorem c8_counterexample :
    c8missingKey.reports = [] ∧ c8missingKey.reports.length ≠ 1 ∧
    c8missingKey.value = .num 1 ∧ c8missingKey.persistKey = none ∧
    (writeSig c8missingKey (.num 5)).storeWrites = [] := by
  decide

/-- C8 amended: cell creation with persistence requested never raises
(`refCreate` is total): a stored value under the key that parses
overrides the caller's initial value; a parse failure is reported and
the initial value is retained; and a missing key disables persistence —
no load at creation, no store call on any write — silently, with no
report. -/
theorem c8_amended_persistence (parse : String → Option JSVal)
    (store : List (String × String)) (init : JSVal) (opts : RefOptions) :
    (∀ k s v, opts.key = some k → k ≠ "" → opts.persist = true →
      lookupStore store k = some s → parse s = some v →
      (refCreate parse store init opts).value = v ∧
      (refCreate parse store init opts).reports = []) ∧
    (∀ k s, opts.key = some k → k ≠ "" → opts.persist = true →
      lookupStore store k = some s → parse s = none →
      (refCreate parse store init opts).value = init ∧
      (refCreate parse store init opts).reports = [loadErrorReport k]) ∧
    (opts.persist = true → opts.key = none →
      (refCreate parse store init opts).value = init ∧
      (refCreate parse store init opts).persistKey = none ∧
      (refCreate parse store init opts).reports = [] ∧
      (∀ v, (writeSig (refCreate parse store init opts) v).storeWrites = [])) := by
  refine ⟨?_, ?_, ?_⟩
  · intro k s v hkey hk hp hs hparse
    constructor <;> simp [refCreate, hkey, hk, hp, hs, hparse, keyTruthy]
  · intro k s hkey hk hp hs hparse
    constructor <;> simp [refCreate, hkey, hk, hp, hs, hparse, keyTruthy]
  · intro hp hkey
    have hv : (refCreate parse store init opts).value = init := by
      simp [refCreate, hkey, keyTruthy]
    have hpk : (refCreate parse store init opts).persistKey = none := by
      simp [refCreate, hkey, keyTruthy]
    have hr : (refCreate parse store init opts).reports = [] := by
      simp [refCreate, hkey, keyTruthy]
    refine ⟨hv, hpk, hr, fun v => ?_⟩
    rw [writeSig_no_store _ hpk v]
    simp [refCreate, hkey, keyTruthy]

/-- Witness for the amended C8: against the store `{"k": "7"}` and the
parse function of the scenario, creation with key `"k"` loads 7;
creation with key `"k"` against the unparsable store `{"k": "oops"}`
reports and keeps the initial 1; creation with the key missing keeps 1
and a write of 5 performs no store call. -/
theorem c8_amended_persistence_witness :
    ((refCreate c8parse [("k", "7")] (.num 1)
        { persist := true, key := some "k" }).value = .num 7) ∧
    ((refCreate c8parse [("k", "oops")] (.num 1)
        { persist := true, key := some "k" }).value = .num 1 ∧
     (refCreate c8parse [("k", "oops")] (.num 1)
        { persist := true, key := some "k" }).reports = [loadErrorReport "k"]) ∧
    ((refCreate c8parse [("k", "7")] (.num 1) { persist := true }).value = .num 1 ∧
     (writeSig (refCreate c8parse [("k", "7")] (.num 1) { persist := true })
        (.num 5)).storeWrites = []) := by
  refine ⟨?_, ?_, ?_⟩
  · exact ((c8_amended_persistence c8parse [("k", "7")] (.num 1)
      { persist := true, key := some "k" }).1 "k" "7" (.num 7) rfl (by decide) rfl
      (by decide) (by decide)).1
  · exact (c8_amended_persistence c8parse [("k", "oops")] (.num 1)
      { persist := true, key := some "k" }).2.1 "k" "oops" rfl (by decide) rfl
      (by decide) (by decide)
  · obtain ⟨v1, _, _, v4⟩ := (c8_amended_persistence c8parse [("k", "7")] (.num 1)
      { persist := true }).2.2 rfl rfl
    exact ⟨v1, v4 (.num 5)⟩

/-- C9: `derive(X, Y, (x, y) => x + y)` and `computed(() => X() + Y())`
produce identical value sequences under every write sequence to the
sources — `derive` is definitional sugar: its `computed` body reads the
positional dependencies in order and applies the compute function,
which for two integer sources and `(x, y) => x + y` is exactly the
body `() => X() + Y()` (the equality holds for every binary compute
function, and in particular for the claim's addition). -/
theorem c9_derive_computed_equivalence (f : Int → Int → Int) (x0 y0 : Int)
    (ops : List (Sum Int Int)) :
    deriveValueSeq f x0 y0 ops = valueSeq f x0 y0 ops ∧
    deriveValueSeq (fun x y => x + y) x0 y0 ops =
      valueSeq (fun x y => x + y) x0 y0 ops :=
  ⟨rfl, rfl⟩

/-- C10: on a history-enabled cell, when the state that `undo()` (or
`redo()`) would restore is a stored `null`, the call performs no write
at all — the value and both notification channels are untouched — yet
the history stacks have already been popped and pushed by the attempt,
so the cell's value desynchronizes from the history cursor. -/
theorem c10_null_restore_skips_write (st : SigState) (h : History)
    (hh : st.hist = some h) :
    (∀ p cur, h.past = p ++ [.jsNull, cur] →
      sigUndo st = { st with hist := some ⟨p ++ [.jsNull], h.future ++ [cur], h.maxSize⟩ } ∧
      (sigUndo st).value = st.value ∧ (sigUndo st).notifyLog = st.notifyLog ∧
      (sigUndo st).queue = st.queue) ∧
    (∀ q, h.future = q ++ [.jsNull] →
      sigRedo st = { st with hist := some ⟨h.past ++ [.jsNull], q, h.maxSize⟩ } ∧
      (sigRedo st).value = st.value ∧ (sigRedo st).notifyLog = st.notifyLog ∧
      (sigRedo st).queue = st.queue) := by
  obtain ⟨val, hist, iur, pk, sw, rp, ib, qu, nl⟩ := st
  have hh' : hist = some h := hh
  subst hh'
  constructor
  · intro p cur hp
    have key : p ++ [JSVal.jsNull, cur] = (p ++ [JSVal.jsNull]) ++ [cur] := by simp
    have hu : h.undoH = (⟨p ++ [.jsNull], h.future ++ [cur], h.maxSize⟩, .jsNull) := by
      unfold History.undoH
      rw [hp, key, if_neg (by simp)]
      simp only [List.dropLast_concat, List.getLastD_concat]
    have heq : sigUndo ⟨val, some h, iur, pk, sw, rp, ib, qu, nl⟩ =
        { value := val, hist := some ⟨p ++ [.jsNull], h.future ++ [cur], h.maxSize⟩,
          isUndoRedo := iur, persistKey := pk, storeWrites := sw, reports := rp,
          isBatching := ib, queue := qu, notifyLog := nl } := by
      simp [sigUndo, hu]
    exact ⟨heq, by rw [heq], by rw [heq], by rw [heq]⟩
  · intro q hf
    have hr : h.redoH = (⟨h.past ++ [.jsNull], q, h.maxSize⟩, .jsNull) := by
      unfold History.redoH
      rw [hf, if_neg (by simp)]
      simp only [List.dropLast_concat, List.getLastD_concat]
    have heq : sigRedo ⟨val, some h, iur, pk, sw, rp, ib, qu, nl⟩ =
        { value := val, hist := some ⟨h.past ++ [.jsNull], q, h.maxSize⟩,
          isUndoRedo := iur, persistKey := pk, storeWrites := sw, reports := rp,
          isBatching := ib, queue := qu, notifyLog := nl } := by
      simp [sigRedo, hr]
    exact ⟨heq, by rw [heq], by rw [heq], by rw [heq]⟩

/-- Witness for C10: the cell `create(null, {history: true})` after
`write(1)` has history `past = [null, 1]`; `undo()` pops the stacks
(leaving `past = [null]`, `future = [1]`) yet performs no write — the
value stays 1, desynchronized from the history cursor `null`. -/
theorem c10_null_restore_witness :
    c10cell.hist = some ⟨[.jsNull, .num 1], [], 100⟩ ∧
    sigUndo c10cell = { c10cell with hist := some ⟨[.jsNull], [.num 1], 100⟩ } ∧
    (sigUndo c10cell).value = .num 1 ∧
    (sigUndo c10cell).notifyLog = c10cell.notifyLog := by
  have hh : c10cell.hist = some ⟨[.jsNull, .num 1], [], 100⟩ := by decide
  obtain ⟨h1, _, h3, _⟩ :=
    (c10_null_restore_skips_write c10cell ⟨[.jsNull, .num 1], [], 100⟩ hh).1
      [] (.num 1) rfl
  refine ⟨hh, ?_, ?_, h3⟩
  · rw [h1]; decide
  · rw [h1]; decide

end SignalsJS
